import Mathlib

/-!
Verification of the calculation, validation and repository core of the
"suivi-arrets" production-stoppage tracker.

The Python source is shallowly embedded: real numbers are modelled as
rationals, `datetime.time` as a record of hour/minute/second/microsecond,
`datetime.date` as year/month/day with proleptic-Gregorian ordinals, the
SQLite stores as lists of rows, and Python's `round` as round-half-to-even
over rationals.
-/

set_option maxRecDepth 2000

namespace Suivi

/-- Python `round` to the nearest integer, ties to even, over rationals. -/
def pyRoundInt (q : ℚ) : ℤ :=
  let n : ℤ := ⌊q⌋
  if q - n < 1/2 then n
  else if 1/2 < q - n then n + 1
  else if n % 2 = 0 then n else n + 1

/-- Python `round(q, ndigits)` over rationals. -/
def pyRound (ndigits : Nat) (q : ℚ) : ℚ :=
  (pyRoundInt (q * 10 ^ ndigits) : ℚ) / 10 ^ ndigits

theorem pyRoundInt_le (q : ℚ) : ⌊q⌋ ≤ pyRoundInt q ∧ pyRoundInt q ≤ ⌊q⌋ + 1 := by
  unfold pyRoundInt
  dsimp only
  split <;> [skip; split] <;> [skip; skip; split] <;> omega

theorem pyRoundInt_intCast (n : ℤ) : pyRoundInt (n : ℚ) = n := by
  unfold pyRoundInt
  simp

theorem pyRoundInt_nonneg (q : ℚ) (hq : 0 ≤ q) : 0 ≤ pyRoundInt q := by
  have h := (pyRoundInt_le q).1
  have : (0:ℤ) ≤ ⌊q⌋ := by positivity
  omega

theorem pyRoundInt_le_of_le (q : ℚ) (c : ℤ) (h : q ≤ (c : ℚ)) : pyRoundInt q ≤ c := by
  have hf : ⌊q⌋ ≤ c := by
    have h2 := Int.floor_le_floor h
    rwa [Int.floor_intCast] at h2
  rcases lt_or_eq_of_le hf with hlt | heq
  · have := (pyRoundInt_le q).2
    omega
  · have hcq : (c : ℚ) ≤ q := by
      have := Int.floor_le q
      rw [heq] at this
      exact_mod_cast this
    have hqc : q = (c : ℚ) := le_antisymm h hcq
    rw [hqc, pyRoundInt_intCast]

/-! ## Times of day (`datetime.time`) -/

/-- A Python `datetime.time` value. -/
structure PyTime where
  hour : Nat
  minute : Nat
  second : Nat
  microsecond : Nat
deriving DecidableEq, Repr

/-- The bounds `datetime.time` enforces at construction. -/
def PyTime.isValid (t : PyTime) : Prop :=
  t.hour < 24 ∧ t.minute < 60 ∧ t.second < 60 ∧ t.microsecond < 1000000

instance (t : PyTime) : Decidable t.isValid := by
  unfold PyTime.isValid; infer_instance

/-- Microseconds since midnight; `datetime` comparisons and subtraction on a
shared reference date reduce to comparisons and subtraction of this value. -/
def PyTime.toMicros (t : PyTime) : Nat :=
  ((t.hour * 60 + t.minute) * 60 + t.second) * 1000000 + t.microsecond

theorem PyTime.toMicros_lt_day (t : PyTime) (h : t.isValid) :
    t.toMicros < 86400000000 := by
  obtain ⟨h1, h2, h3, h4⟩ := h
  unfold PyTime.toMicros
  omega

/-- `calculations.calculate_duration`: elapsed hours between two times of day,
adding one day when the end does not come strictly after the start, rounded to
2 decimal places. -/
def calculate_duration (heure_debut heure_fin : PyTime) : ℚ :=
  let a := heure_debut.toMicros
  let b := heure_fin.toMicros
  let b' := if b ≤ a then b + 86400000000 else b
  pyRound 2 (((b' : ℚ) - (a : ℚ)) / 1000000 / 3600)

/-- `calculations.is_overnight_stop`: true iff the end time does not come
strictly after the start time. -/
def is_overnight_stop (heure_debut heure_fin : PyTime) : Bool :=
  decide (heure_fin.toMicros ≤ heure_debut.toMicros)

/-- Claim C2: for every pair of times of day, when the end is strictly after
the start the duration is the end minus the start in hours rounded to two
decimals and the stop is not overnight; when the end is at or before the start
the duration is the end plus 24 hours minus the start rounded to two decimals
and the stop is overnight. -/
theorem calculate_duration_cases (t1 t2 : PyTime) :
    (t1.toMicros < t2.toMicros →
      calculate_duration t1 t2
        = pyRound 2 (((t2.toMicros : ℚ) - (t1.toMicros : ℚ)) / 1000000 / 3600)
      ∧ is_overnight_stop t1 t2 = false)
    ∧ (t2.toMicros ≤ t1.toMicros →
      calculate_duration t1 t2
        = pyRound 2 ((((t2.toMicros : ℚ) + 86400000000) - (t1.toMicros : ℚ)) / 1000000 / 3600)
      ∧ is_overnight_stop t1 t2 = true) := by
  constructor
  · intro h
    constructor
    · unfold calculate_duration
      dsimp only
      rw [if_neg (by omega)]
    · unfold is_overnight_stop
      simp only [decide_eq_false_iff_not]
      omega
  · intro h
    constructor
    · unfold calculate_duration
      dsimp only
      rw [if_pos h]
      push_cast
      ring_nf
    · unfold is_overnight_stop
      simp only [decide_eq_true_eq]
      exact h

theorem calculate_duration_cases_witness :
    ((⟨6,0,0,0⟩ : PyTime).toMicros < (⟨14,0,0,0⟩ : PyTime).toMicros
      ∧ calculate_duration ⟨6,0,0,0⟩ ⟨14,0,0,0⟩
          = pyRound 2 ((((⟨14,0,0,0⟩ : PyTime).toMicros : ℚ) - ((⟨6,0,0,0⟩ : PyTime).toMicros : ℚ)) / 1000000 / 3600)
      ∧ is_overnight_stop ⟨6,0,0,0⟩ ⟨14,0,0,0⟩ = false)
    ∧ ((⟨2,0,0,0⟩ : PyTime).toMicros ≤ (⟨22,0,0,0⟩ : PyTime).toMicros
      ∧ is_overnight_stop ⟨22,0,0,0⟩ ⟨2,0,0,0⟩ = true) :=
  ⟨⟨by decide,
    (calculate_duration_cases ⟨6,0,0,0⟩ ⟨14,0,0,0⟩).1 (by decide)⟩,
   ⟨by decide,
    ((calculate_duration_cases ⟨22,0,0,0⟩ ⟨2,0,0,0⟩).2 (by decide)).2⟩⟩

theorem pyRoundInt_of_lt_half (q : ℚ) (h0 : 0 ≤ q) (hh : q < 1/2) :
    pyRoundInt q = 0 := by
  have hfl : ⌊q⌋ = 0 := by
    rw [Int.floor_eq_zero_iff]
    constructor
    · exact h0
    · linarith
  unfold pyRoundInt
  dsimp only
  rw [hfl]
  rw [if_pos (by push_cast; linarith)]

theorem pyRound_intCast (ndigits : Nat) (n : ℤ) (q : ℚ)
    (h : q * 10 ^ ndigits = (n : ℚ)) : pyRound ndigits q = (n : ℚ) / 10 ^ ndigits := by
  unfold pyRound
  rw [h, pyRoundInt_intCast]

theorem pyRound2_hours_bounds (d : ℚ) (h0 : 0 ≤ d) (hle : d ≤ 86400000000) :
    0 ≤ pyRound 2 (d / 1000000 / 3600) ∧ pyRound 2 (d / 1000000 / 3600) ≤ 24 := by
  set q : ℚ := d / 1000000 / 3600 with hq
  have hq0 : 0 ≤ q := by positivity
  have hq24 : q ≤ 24 := by
    rw [hq, div_div]
    rw [div_le_iff₀ (by norm_num)]
    linarith
  have h100 : q * 10 ^ 2 ≤ ((2400 : ℤ) : ℚ) := by push_cast; nlinarith
  have hlo := pyRoundInt_nonneg (q * 10 ^ 2) (by positivity)
  have hhi := pyRoundInt_le_of_le (q * 10 ^ 2) 2400 h100
  unfold pyRound
  constructor
  · positivity
  · rw [div_le_iff₀ (by norm_num)]
    calc (pyRoundInt (q * 10 ^ 2) : ℚ) ≤ ((2400 : ℤ) : ℚ) := by exact_mod_cast hhi
    _ = 24 * 10 ^ 2 := by norm_num

/-- Claim C10 (counterexample): a stoppage from 00:00:00 to 00:00:01 has
computed duration 0.0, not a strictly positive value. -/
theorem calculate_duration_not_pos :
    calculate_duration ⟨0,0,0,0⟩ ⟨0,0,1,0⟩ = 0
    ∧ ¬ (0 < calculate_duration ⟨0,0,0,0⟩ ⟨0,0,1,0⟩) := by
  have h : calculate_duration ⟨0,0,0,0⟩ ⟨0,0,1,0⟩ = 0 := by
    unfold calculate_duration
    dsimp only
    rw [if_neg (by decide)]
    have harg : (((PyTime.mk 0 0 1 0).toMicros : ℚ) - ((PyTime.mk 0 0 0 0).toMicros : ℚ))
        / 1000000 / 3600 = 1/3600 := by
      norm_num [PyTime.toMicros]
    rw [harg]
    unfold pyRound
    have h36 : (1/3600 : ℚ) * 10 ^ 2 = 1/36 := by norm_num
    rw [h36, pyRoundInt_of_lt_half (1/36) (by norm_num) (by norm_num)]
    norm_num
  exact ⟨h, by rw [h]; norm_num⟩

/-- Claim C10 (amended): for valid times of day the computed duration is
nonnegative (it can round down to exactly 0 for sub-18-second stops) and at
most 24 hours, and equal start and end times yield exactly 24.0 hours. -/
theorem calculate_duration_bounds (t1 t2 : PyTime)
    (h1 : t1.isValid) (h2 : t2.isValid) :
    0 ≤ calculate_duration t1 t2 ∧ calculate_duration t1 t2 ≤ 24
    ∧ (t1.toMicros = t2.toMicros → calculate_duration t1 t2 = 24) := by
  have ha := t1.toMicros_lt_day h1
  have hb := t2.toMicros_lt_day h2
  unfold calculate_duration
  dsimp only
  by_cases hcase : t2.toMicros ≤ t1.toMicros
  · rw [if_pos hcase]
    have h0 : (0:ℚ) ≤ ((t2.toMicros + 86400000000 : Nat) : ℚ) - (t1.toMicros : ℚ) := by
      push_cast
      have : (t1.toMicros : ℚ) < 86400000000 := by exact_mod_cast ha
      linarith
    have hle : ((t2.toMicros + 86400000000 : Nat) : ℚ) - (t1.toMicros : ℚ) ≤ 86400000000 := by
      push_cast
      have : (0:ℚ) ≤ (t2.toMicros : ℚ) := Nat.cast_nonneg _
      have h2' : (t2.toMicros : ℚ) ≤ (t1.toMicros : ℚ) := by exact_mod_cast hcase
      linarith
    refine ⟨(pyRound2_hours_bounds _ h0 hle).1, (pyRound2_hours_bounds _ h0 hle).2, ?_⟩
    intro heq
    rw [heq]
    have hval : ((t2.toMicros + 86400000000 : Nat) : ℚ) - (t2.toMicros : ℚ) = 86400000000 := by
      push_cast; ring
    rw [hval]
    have h24 : (86400000000 : ℚ) / 1000000 / 3600 = 24 := by norm_num
    rw [h24, pyRound_intCast 2 2400 24 (by norm_num)]
    norm_num
  · rw [if_neg hcase]
    have hltq : (t1.toMicros : ℚ) < (t2.toMicros : ℚ) := by
      exact_mod_cast Nat.lt_of_not_le hcase
    have h0 : (0:ℚ) ≤ ((t2.toMicros : Nat) : ℚ) - (t1.toMicros : ℚ) := by linarith
    have hle : ((t2.toMicros : Nat) : ℚ) - (t1.toMicros : ℚ) ≤ 86400000000 := by
      have : (t2.toMicros : ℚ) < 86400000000 := by exact_mod_cast hb
      have h2' : (0:ℚ) ≤ (t1.toMicros : ℚ) := Nat.cast_nonneg _
      linarith
    refine ⟨(pyRound2_hours_bounds _ h0 hle).1, (pyRound2_hours_bounds _ h0 hle).2, ?_⟩
    intro heq
    omega

theorem calculate_duration_bounds_witness :
    0 ≤ calculate_duration ⟨22,0,0,0⟩ ⟨22,0,0,0⟩
    ∧ calculate_duration ⟨22,0,0,0⟩ ⟨22,0,0,0⟩ ≤ 24
    ∧ calculate_duration ⟨22,0,0,0⟩ ⟨22,0,0,0⟩ = 24 := by
  have h := calculate_duration_bounds ⟨22,0,0,0⟩ ⟨22,0,0,0⟩ (by decide) (by decide)
  exact ⟨h.1, h.2.1, h.2.2 rfl⟩

/-! ## Dates (`datetime.date`) and the ISO calendar

The repository calls `date.isocalendar()` and
`datetime.strptime(f'{year}-W{week:02d}-1', '%G-W%V-%u')`; both are embedded
below following CPython's `datetime` implementation, over proleptic-Gregorian
day ordinals (ordinal 1 = January 1 of year 1, a Monday, as in
`date.toordinal`). -/

/-- Gregorian leap year, as CPython `_is_leap`. -/
def isLeap (y : Nat) : Bool :=
  y % 4 == 0 && (y % 100 != 0 || y % 400 == 0)

/-- Days before January 1 of year `y`, as CPython `_days_before_year`. -/
def daysBeforeYear (y : Nat) : Nat :=
  let yp := y - 1
  365 * yp + yp / 4 - yp / 100 + yp / 400

/-- Days in a month, as CPython `_days_in_month`. -/
def daysInMonth (y m : Nat) : Nat :=
  match m with
  | 1 => 31 | 2 => if isLeap y then 29 else 28 | 3 => 31 | 4 => 30
  | 5 => 31 | 6 => 30 | 7 => 31 | 8 => 31 | 9 => 30 | 10 => 31
  | 11 => 30 | 12 => 31 | _ => 0

/-- Days in year `y` before the first of month `m`, as CPython
`_days_before_month`. -/
def daysBeforeMonth (y m : Nat) : Nat :=
  (match m with
   | 1 => 0 | 2 => 31 | 3 => 59 | 4 => 90 | 5 => 120 | 6 => 151
   | 7 => 181 | 8 => 212 | 9 => 243 | 10 => 273 | 11 => 304 | 12 => 334
   | _ => 0)
  + (if 2 < m && isLeap y then 1 else 0)

/-- A Python `datetime.date` value. -/
structure PyDate where
  year : Nat
  month : Nat
  day : Nat
deriving DecidableEq, Repr

/-- The bounds `datetime.date` enforces at construction (the 9999 upper bound
on years is immaterial to the arithmetic and omitted). -/
def PyDate.isValid (d : PyDate) : Prop :=
  1 ≤ d.year ∧ 1 ≤ d.month ∧ d.month ≤ 12 ∧ 1 ≤ d.day ∧ d.day ≤ daysInMonth d.year d.month

instance (d : PyDate) : Decidable d.isValid := by
  unfold PyDate.isValid; infer_instance

/-- `date.toordinal`: proleptic-Gregorian day number, day 1 = 0001-01-01. -/
def PyDate.toOrdinal (d : PyDate) : Nat :=
  daysBeforeYear d.year + daysBeforeMonth d.year d.month + d.day

/-- `date.isoweekday`: 1 = Monday .. 7 = Sunday, from the ordinal. -/
def pyIsoweekday (n : Nat) : Nat :=
  if n % 7 = 0 then 7 else n % 7

/-- CPython `_isoweek1monday`: ordinal of the Monday starting ISO week 1 of
year `y`. -/
def isoweek1monday (y : Nat) : Nat :=
  let firstday := daysBeforeYear y + 1
  let firstweekday := (firstday + 6) % 7
  let week1monday := firstday - firstweekday
  if 3 < firstweekday then week1monday + 7 else week1monday

/-- `date.isocalendar`: (ISO year, ISO week, ISO weekday), following CPython's
algorithm. -/
def isocalendar (d : PyDate) : Nat × Nat × Nat :=
  let n := d.toOrdinal
  let w1m := isoweek1monday d.year
  if n < w1m then
    let w1m' := isoweek1monday (d.year - 1)
    (d.year - 1, (n - w1m') / 7 + 1, (n - w1m') % 7 + 1)
  else if 52 ≤ (n - w1m) / 7 ∧ isoweek1monday (d.year + 1) ≤ n then
    (d.year + 1, 1, (n - w1m) % 7 + 1)
  else
    (d.year, (n - w1m) / 7 + 1, (n - w1m) % 7 + 1)

/-- The content of the ISO-week string `f"{year}-S{week:02d}"` produced by
`calculations.get_iso_week`; the decimal formatting of the two components and
the exact inverse parse `semaine.split('-S')` / `int(...)` performed by
`get_week_boundaries` are modelled as the identity on this pair. -/
structure SemaineLabel where
  year : Nat
  week : Nat
deriving DecidableEq, Repr

/-- `calculations.get_iso_week`: the ISO year and week of a date, as the
label `'{iso_cal[0]}-S{iso_cal[1]:02d}'`. -/
def get_iso_week (d : PyDate) : SemaineLabel :=
  let ic := isocalendar d
  ⟨ic.1, ic.2.1⟩

/-- Ordinal of the Monday of ISO week `V` of ISO year `G`, following CPython
`_strptime._calc_julian_from_V` with weekday 1. -/
def strptimeIsoWeekMonday (G V : Nat) : Nat :=
  let correction := pyIsoweekday (daysBeforeYear G + 4) + 3
  daysBeforeYear G + (V * 7 + 1) - correction

/-- `calculations.get_week_boundaries`: splits the label back into year and
week (the inverse of the formatting, modelled as the identity on
`SemaineLabel`) and runs
`datetime.strptime(f'{year}-W{week:02d}-1', '%G-W%V-%u')`.
CPython's `_strptime` matches `%G` by the regex `\d\d\d\d` (exactly four
digits) and `%V` by a one-or-two-digit number at most 53, so the unpadded
`f'{year}'` makes the call raise `ValueError` whenever the ISO year is not
between 1000 and 9999, and a week beyond 53 cannot match either; the result
is the Monday of the labelled ISO week and that Monday plus six days. -/
def get_week_boundaries (l : SemaineLabel) : Except String (Nat × Nat) :=
  if 1000 ≤ l.year ∧ l.year ≤ 9999 ∧ l.week ≤ 53 then
    let first_day := strptimeIsoWeekMonday l.year l.week
    .ok (first_day, first_day + 6)
  else
    .error "time data does not match format %G-W%V-%u"

theorem isLeap_iff (y : Nat) :
    isLeap y = true ↔ (y % 4 = 0 ∧ (y % 100 ≠ 0 ∨ y % 400 = 0)) := by
  simp [isLeap]

theorem daysBeforeYear_add (y : Nat) :
    daysBeforeYear y + (y-1)/100 = 365*(y-1) + (y-1)/4 + (y-1)/400 := by
  unfold daysBeforeYear
  dsimp only
  omega

theorem daysBeforeYear_succ (y : Nat) (hy : 1 ≤ y) :
    daysBeforeYear (y + 1) = daysBeforeYear y + (if isLeap y then 366 else 365) := by
  have e1 := daysBeforeYear_add (y + 1)
  have e2 := daysBeforeYear_add y
  by_cases hl : isLeap y = true
  · rw [if_pos hl]
    have h := (isLeap_iff y).mp hl
    omega
  · rw [if_neg hl]
    have h : ¬(y % 4 = 0 ∧ (y % 100 ≠ 0 ∨ y % 400 = 0)) := fun hc => hl ((isLeap_iff y).mpr hc)
    omega

theorem daysBeforeYear_year_len (y : Nat) (hy : 1 ≤ y) :
    daysBeforeYear y + 365 ≤ daysBeforeYear (y + 1)
    ∧ daysBeforeYear (y + 1) ≤ daysBeforeYear y + 366 := by
  have h := daysBeforeYear_succ y hy
  split at h <;> omega

theorem div_hundred_le_div_four (n : Nat) : n / 100 ≤ n / 4 :=
  Nat.div_le_div_left (by norm_num) (by norm_num)

theorem daysBeforeYear_big (y : Nat) (hy : 2 ≤ y) : 365 ≤ daysBeforeYear y := by
  have e := daysBeforeYear_add y
  have hd := div_hundred_le_div_four (y - 1)
  omega

theorem isoweek1monday_spec (y : Nat) (hy : 1 ≤ y) :
    isoweek1monday y % 7 = 1
    ∧ daysBeforeYear y + 1 ≤ isoweek1monday y + 3
    ∧ isoweek1monday y ≤ daysBeforeYear y + 4 := by
  rcases Nat.lt_or_ge y 2 with h2 | h2
  · have : y = 1 := by omega
    subst this
    decide
  · have hbig := daysBeforeYear_big y h2
    unfold isoweek1monday
    dsimp only
    split <;> omega

theorem toOrdinal_bounds (d : PyDate) (h : d.isValid) :
    daysBeforeYear d.year + 1 ≤ d.toOrdinal
    ∧ d.toOrdinal ≤ daysBeforeYear (d.year + 1) := by
  obtain ⟨hy, hm1, hm2, hd1, hd2⟩ := h
  have hsucc := daysBeforeYear_succ d.year hy
  unfold PyDate.toOrdinal
  constructor
  · omega
  · rcases Bool.eq_false_or_eq_true (isLeap d.year) with hl | hl <;>
      simp only [hl, if_true, if_false, Bool.false_eq_true] at hsucc <;>
      interval_cases d.month <;>
      simp [daysBeforeMonth, daysInMonth, hl] at hd2 ⊢ <;>
      omega

theorem strptimeIsoWeekMonday_eq (G V : Nat) (hG : 1 ≤ G) (hV : 1 ≤ V) :
    strptimeIsoWeekMonday G V = isoweek1monday G + 7 * (V - 1) := by
  rcases Nat.lt_or_ge G 2 with h2 | h2
  · have : G = 1 := by omega
    subst this
    unfold strptimeIsoWeekMonday isoweek1monday pyIsoweekday daysBeforeYear
    dsimp only
    norm_num
    omega
  · have hbig := daysBeforeYear_big G h2
    unfold strptimeIsoWeekMonday isoweek1monday pyIsoweekday
    dsimp only
    split <;> split <;> omega

/-- Claim C5 (counterexample): for the valid date 0500-01-15 the ISO year is
500, the unpadded `f'{year}'` is three characters, `strptime`'s `%G` directive
(exactly four digits) does not match, and `get_week_boundaries` raises
instead of succeeding. -/
theorem get_week_boundaries_raises_small_year :
    (PyDate.mk 500 1 15).isValid
    ∧ get_iso_week ⟨500, 1, 15⟩ = ⟨500, 2⟩
    ∧ get_week_boundaries (get_iso_week ⟨500, 1, 15⟩)
        = .error "time data does not match format %G-W%V-%u" := by
  refine ⟨by decide, by decide, ?_⟩
  have h : get_iso_week ⟨500, 1, 15⟩ = ⟨500, 2⟩ := by decide
  rw [h]
  unfold get_week_boundaries
  rw [if_neg (by decide)]

/-- Claim C5 (amended): for every valid date whose ISO year has four decimal
digits (1000 to 9999; below 1000 the unpadded year fails `strptime`'s `%G`
match and the call raises), `get_week_boundaries (get_iso_week d)` succeeds
and returns the Monday on or before `d` together with that Monday plus six
days, so `d` lies within the returned seven-day span. -/
theorem get_week_boundaries_get_iso_week (d : PyDate) (hv : d.isValid)
    (hy1 : 1000 ≤ (get_iso_week d).year) (hy2 : (get_iso_week d).year ≤ 9999) :
    ∃ s e : Nat,
      get_week_boundaries (get_iso_week d) = .ok (s, e)
      ∧ s = d.toOrdinal - (d.toOrdinal - 1) % 7
      ∧ pyIsoweekday s = 1
      ∧ e = s + 6
      ∧ s ≤ d.toOrdinal ∧ d.toOrdinal ≤ e := by
  have hy : 1 ≤ d.year := hv.1
  have hb := toOrdinal_bounds d hv
  have h0 := isoweek1monday_spec d.year hy
  by_cases hA : d.toOrdinal < isoweek1monday d.year
  · -- ISO week belongs to the previous calendar year
    have hic : isocalendar d =
        (d.year - 1, (d.toOrdinal - isoweek1monday (d.year - 1)) / 7 + 1,
          (d.toOrdinal - isoweek1monday (d.year - 1)) % 7 + 1) := by
      unfold isocalendar
      dsimp only
      rw [if_pos hA]
    have hlab : get_iso_week d =
        ⟨d.year - 1, (d.toOrdinal - isoweek1monday (d.year - 1)) / 7 + 1⟩ := by
      unfold get_iso_week
      rw [hic]
    rw [hlab] at hy1 hy2 ⊢
    dsimp only at hy1 hy2
    have hY2 : 2 ≤ d.year := by omega
    have h1 := isoweek1monday_spec (d.year - 1) (by omega)
    have hlen := daysBeforeYear_year_len (d.year - 1) (by omega)
    have hyy : d.year - 1 + 1 = d.year := by omega
    rw [hyy] at hlen
    have hM1n : isoweek1monday (d.year - 1) ≤ d.toOrdinal := by omega
    have hW : (d.toOrdinal - isoweek1monday (d.year - 1)) / 7 + 1 ≤ 53 := by omega
    unfold get_week_boundaries
    dsimp only
    rw [if_pos ⟨hy1, hy2, hW⟩]
    rw [strptimeIsoWeekMonday_eq (d.year - 1) _ (by omega) (by omega)]
    refine ⟨_, _, rfl, by omega, ?_, rfl, by omega, by omega⟩
    unfold pyIsoweekday
    split <;> omega
  · by_cases hB : 52 ≤ (d.toOrdinal - isoweek1monday d.year) / 7
        ∧ isoweek1monday (d.year + 1) ≤ d.toOrdinal
    · -- ISO week 1 of the next calendar year
      have hic : isocalendar d =
          (d.year + 1, 1, (d.toOrdinal - isoweek1monday d.year) % 7 + 1) := by
        unfold isocalendar
        dsimp only
        rw [if_neg hA, if_pos hB]
      have hlab : get_iso_week d = ⟨d.year + 1, 1⟩ := by
        unfold get_iso_week
        rw [hic]
      rw [hlab] at hy1 hy2 ⊢
      dsimp only at hy1 hy2
      have h2 := isoweek1monday_spec (d.year + 1) (by omega)
      have hlen := daysBeforeYear_year_len d.year hy
      unfold get_week_boundaries
      dsimp only
      rw [if_pos ⟨hy1, hy2, by omega⟩]
      rw [strptimeIsoWeekMonday_eq (d.year + 1) 1 (by omega) (by omega)]
      refine ⟨_, _, rfl, by omega, ?_, rfl, by omega, by omega⟩
      unfold pyIsoweekday
      split <;> omega
    · -- ISO week within the same calendar year
      have hic : isocalendar d =
          (d.year, (d.toOrdinal - isoweek1monday d.year) / 7 + 1,
            (d.toOrdinal - isoweek1monday d.year) % 7 + 1) := by
        unfold isocalendar
        dsimp only
        rw [if_neg hA, if_neg hB]
      have hlab : get_iso_week d =
          ⟨d.year, (d.toOrdinal - isoweek1monday d.year) / 7 + 1⟩ := by
        unfold get_iso_week
        rw [hic]
      rw [hlab] at hy1 hy2 ⊢
      dsimp only at hy1 hy2
      have h2 := isoweek1monday_spec (d.year + 1) (by omega)
      have hlen := daysBeforeYear_year_len d.year hy
      have hW : (d.toOrdinal - isoweek1monday d.year) / 7 + 1 ≤ 53 := by omega
      unfold get_week_boundaries
      dsimp only
      rw [if_pos ⟨hy1, hy2, hW⟩]
      rw [strptimeIsoWeekMonday_eq d.year _ (by omega) (by omega)]
      refine ⟨_, _, rfl, by omega, ?_, rfl, by omega, by omega⟩
      unfold pyIsoweekday
      split <;> omega

theorem get_week_boundaries_get_iso_week_witness :
    ∃ s e : Nat,
      get_week_boundaries (get_iso_week ⟨2026, 1, 15⟩) = .ok (s, e)
      ∧ s = (PyDate.mk 2026 1 15).toOrdinal - ((PyDate.mk 2026 1 15).toOrdinal - 1) % 7
      ∧ pyIsoweekday s = 1
      ∧ e = s + 6
      ∧ s ≤ (PyDate.mk 2026 1 15).toOrdinal ∧ (PyDate.mk 2026 1 15).toOrdinal ≤ e :=
  get_week_boundaries_get_iso_week ⟨2026, 1, 15⟩ (by decide) (by decide) (by decide)

/-! ## The productivity matrix store (`repository.MatriceRepository`)

The `matrice_productivite` table is modelled as a list of rows in table
order; `fetchone` on a `SELECT` is the first matching row. -/

/-- A row of the `matrice_productivite` table. -/
structure MatRow where
  id : Nat
  site : String
  client : String
  nbr_equipes : Int
  facteur : ℚ
  actif : Bool
deriving DecidableEq, Repr

/-- The column values supplied to `MatriceRepository.create`/`update`. -/
structure MatData where
  site : String
  client : String
  nbr_equipes : Int
  facteur : ℚ
deriving DecidableEq, Repr

/-- `site = ? AND client = ? AND nbr_equipes = ?` for a row. -/
def matchesKey (r : MatRow) (site client : String) (nbr_equipes : Int) : Bool :=
  r.site == site && r.client == client && r.nbr_equipes == nbr_equipes

inductive DbError where
  | uniqueViolation
deriving DecidableEq, Repr

namespace MatriceRepository

/-- `MatriceRepository.get_facteur`: factor of the first row matching
`site = ? AND client = ? AND nbr_equipes = ? AND actif = 1`, if any. -/
def get_facteur (db : List MatRow) (site client : String) (nbr_equipes : Int) : Option ℚ :=
  match db.find? (fun r => matchesKey r site client nbr_equipes && r.actif) with
  | some r => some r.facteur
  | none => none

/-- Largest id present, modelling the autoincrementing surrogate key. -/
def maxId (db : List MatRow) : Nat :=
  db.foldr (fun r acc => max r.id acc) 0

/-- `MatriceRepository.create`. The `INSERT` itself carries no duplicate
check in `repository.py`; the rejection of a duplicate (site, client,
nbr_equipes) is modelled from the spec: the store enforces a uniqueness
constraint on matrix entries, surfaced to callers as a `UNIQUE constraint`
error (`pages/admin.py` catches exactly that). -/
def create (db : List MatRow) (data : MatData) : Except DbError (List MatRow × Nat) :=
  if db.any (fun r => matchesKey r data.site data.client data.nbr_equipes) then
    .error .uniqueViolation
  else
    let newId := maxId db + 1
    .ok (db ++ [⟨newId, data.site, data.client, data.nbr_equipes, data.facteur, true⟩], newId)

/-- `MatriceRepository.update`: rewrites site, client, nbr_equipes and
facteur of the row with the given id; returns whether a row was updated.
As for `create`, the uniqueness constraint on (site, client, nbr_equipes)
is modelled from the spec. -/
def update (db : List MatRow) (matrix_id : Nat) (data : MatData) :
    Except DbError (List MatRow × Bool) :=
  if db.any (fun r => r.id == matrix_id) then
    if db.any (fun r => r.id != matrix_id
        && matchesKey r data.site data.client data.nbr_equipes) then
      .error .uniqueViolation
    else
      .ok (db.map (fun r => if r.id == matrix_id then
            { r with site := data.site, client := data.client,
                     nbr_equipes := data.nbr_equipes, facteur := data.facteur }
          else r), true)
  else
    .ok (db, false)

/-- `MatriceRepository.delete`: soft delete, `SET actif = 0 WHERE id = ?`;
returns whether a row was touched. -/
def delete (db : List MatRow) (matrix_id : Nat) : List MatRow × Bool :=
  (db.map (fun r => if r.id == matrix_id then { r with actif := false } else r),
   db.any (fun r => r.id == matrix_id))

end MatriceRepository

/-- `calculations.calculate_impact`: `duration / facteur` rounded to six
decimals, or `None` when the matrix lookup misses or yields a zero factor. -/
def calculate_impact (db : List MatRow) (duree_heures : ℚ)
    (site client : String) (nbr_equipes : Int) : Option ℚ :=
  match MatriceRepository.get_facteur db site client nbr_equipes with
  | none => none
  | some facteur =>
    if facteur = 0 then none
    else some (pyRound 6 (duree_heures / facteur))

/-- Claim C1: the impact is null exactly when no active matrix entry matches
(site, client, team count) or the matched factor is 0; otherwise it is the
duration divided by the matched factor, rounded to 6 decimal places, and the
division only ever happens with a nonzero factor. -/
theorem calculate_impact_spec (db : List MatRow) (h : ℚ)
    (site client : String) (n : Int) :
    (calculate_impact db h site client n = none ↔
      MatriceRepository.get_facteur db site client n = none
      ∨ MatriceRepository.get_facteur db site client n = some 0)
    ∧ (MatriceRepository.get_facteur db site client n = none ↔
      ∀ r ∈ db, r.actif = true →
        ¬(r.site = site ∧ r.client = client ∧ r.nbr_equipes = n))
    ∧ (∀ f : ℚ, MatriceRepository.get_facteur db site client n = some f → f ≠ 0 →
      calculate_impact db h site client n = some (pyRound 6 (h / f)))
    ∧ (∀ v : ℚ, calculate_impact db h site client n = some v →
      ∃ f : ℚ, MatriceRepository.get_facteur db site client n = some f
        ∧ f ≠ 0 ∧ v = pyRound 6 (h / f)) := by
  refine ⟨?_, ?_, ?_, ?_⟩
  · unfold calculate_impact
    rcases hgf : MatriceRepository.get_facteur db site client n with _ | f
    · simp
    · by_cases hz : f = 0
      · subst hz
        simp
      · simp [hz]
  · unfold MatriceRepository.get_facteur
    rcases hf : db.find? (fun r => matchesKey r site client n && r.actif) with _ | r
    · rw [List.find?_eq_none] at hf
      simp only [true_iff]
      intro r hr hact hkey
      have := hf r hr
      simp [matchesKey, hact, hkey.1, hkey.2.1, hkey.2.2] at this
    · simp only [reduceCtorEq, false_iff, not_forall]
      have hmem := List.mem_of_find?_eq_some hf
      have hp := List.find?_some hf
      simp only [Bool.and_eq_true, beq_iff_eq, matchesKey] at hp
      exact ⟨r, hmem, by simp [hp.2], by simp [hp.1.1.1, hp.1.1.2, hp.1.2]⟩
  · intro f hf hnz
    unfold calculate_impact
    rw [hf]
    simp [hnz]
  · intro v hv
    unfold calculate_impact at hv
    rcases hgf : MatriceRepository.get_facteur db site client n with _ | f
    · rw [hgf] at hv
      simp at hv
    · rw [hgf] at hv
      by_cases hz : f = 0
      · subst hz
        simp at hv
      · refine ⟨f, rfl, hz, ?_⟩
        simp [hz] at hv
        exact hv.symm

theorem calculate_impact_spec_witness :
    calculate_impact [⟨1, "Berrechid", "ACME", 2, 20, true⟩] 5 "Berrechid" "ACME" 2
      = some (pyRound 6 (5 / 20)) :=
  (calculate_impact_spec [⟨1, "Berrechid", "ACME", 2, 20, true⟩] 5 "Berrechid" "ACME" 2).2.2.1
    20 rfl (by norm_num)

/-- Ids are pairwise distinct (the surrogate integer primary key). -/
def UniqueIds (db : List MatRow) : Prop :=
  db.Pairwise (fun a b => a.id ≠ b.id)

/-- At most one active entry per (site, client, nbr_equipes) triple. -/
def ActiveTripleUnique (db : List MatRow) : Prop :=
  db.Pairwise (fun a b => a.actif = true → b.actif = true →
    ¬(a.site = b.site ∧ a.client = b.client ∧ a.nbr_equipes = b.nbr_equipes))

theorem le_maxId (db : List MatRow) : ∀ r ∈ db, r.id ≤ MatriceRepository.maxId db := by
  induction db with
  | nil => intro r hr; simp at hr
  | cons a l ih =>
    intro r hr
    unfold MatriceRepository.maxId at *
    simp only [List.foldr_cons]
    rcases List.mem_cons.mp hr with h | h
    · subst h
      exact Nat.le_max_left _ _
    · exact le_trans (ih r h) (Nat.le_max_right _ _)

/-- Claim C9: starting from a state with distinct surrogate ids and at most
one active entry per (site, client, team-count) triple, every
`MatriceRepository` operation — create, update, soft delete — preserves the
at-most-one-active-entry invariant (and id distinctness). -/
theorem matrice_invariant_preserved (db : List MatRow) (data : MatData)
    (matrix_id : Nat) (hU : UniqueIds db) (hT : ActiveTripleUnique db) :
    (∀ db' newId, MatriceRepository.create db data = .ok (db', newId) →
      UniqueIds db' ∧ ActiveTripleUnique db')
    ∧ (∀ db' changed, MatriceRepository.update db matrix_id data = .ok (db', changed) →
      UniqueIds db' ∧ ActiveTripleUnique db')
    ∧ (UniqueIds (MatriceRepository.delete db matrix_id).1
      ∧ ActiveTripleUnique (MatriceRepository.delete db matrix_id).1) := by
  refine ⟨?_, ?_, ?_⟩
  · -- create
    intro db' newId hok
    unfold MatriceRepository.create at hok
    by_cases hdup : db.any
        (fun r => matchesKey r data.site data.client data.nbr_equipes) = true
    · rw [if_pos hdup] at hok
      simp at hok
    · rw [if_neg hdup] at hok
      dsimp only at hok
      simp only [Except.ok.injEq, Prod.mk.injEq] at hok
      obtain ⟨hdb, -⟩ := hok
      subst hdb
      have hany : ∀ r ∈ db,
          matchesKey r data.site data.client data.nbr_equipes = false := by
        intro r hr
        by_contra hk
        exact hdup (List.any_eq_true.mpr ⟨r, hr, by simpa using hk⟩)
      constructor
      · rw [UniqueIds, List.pairwise_append]
        refine ⟨hU, List.pairwise_singleton _ _, ?_⟩
        intro a ha b hb
        simp only [List.mem_singleton] at hb
        subst hb
        have := le_maxId db a ha
        dsimp only
        omega
      · rw [ActiveTripleUnique, List.pairwise_append]
        refine ⟨hT, List.pairwise_singleton _ _, ?_⟩
        intro a ha b hb
        simp only [List.mem_singleton] at hb
        subst hb
        intro _ _ hkey
        have h1 := hany a ha
        dsimp only at hkey
        simp [matchesKey, hkey.1, hkey.2.1, hkey.2.2] at h1
  · -- update
    intro db' changed hok
    unfold MatriceRepository.update at hok
    by_cases hex : db.any (fun r => r.id == matrix_id) = true
    · rw [if_pos hex] at hok
      by_cases hdup : db.any (fun r => r.id != matrix_id
          && matchesKey r data.site data.client data.nbr_equipes) = true
      · rw [if_pos hdup] at hok
        simp at hok
      · rw [if_neg hdup] at hok
        simp only [Except.ok.injEq, Prod.mk.injEq] at hok
        obtain ⟨hdb, -⟩ := hok
        subst hdb
        have hguard : ∀ r ∈ db, r.id ≠ matrix_id →
            ¬(r.site = data.site ∧ r.client = data.client
              ∧ r.nbr_equipes = data.nbr_equipes) := by
          intro r hr hne hk
          apply hdup
          refine List.any_eq_true.mpr ⟨r, hr, ?_⟩
          simp [matchesKey, hne, hk.1, hk.2.1, hk.2.2]
        constructor
        · rw [UniqueIds, List.pairwise_map]
          apply hU.imp
          intro a b hab
          by_cases hA : a.id = matrix_id <;> by_cases hB : b.id = matrix_id <;>
            simp [hA, hB] <;> omega
        · rw [ActiveTripleUnique, List.pairwise_map]
          refine List.Pairwise.imp_of_mem ?_ (hU.and hT)
          intro a b ha hb hab
          obtain ⟨hne, hR⟩ := hab
          intro hactA hactB hkey
          by_cases hA : a.id = matrix_id
          · have hB : b.id ≠ matrix_id := by omega
            rw [if_pos (show (a.id == matrix_id) = true by simpa using hA)] at hkey
            rw [if_neg (show ¬ (b.id == matrix_id) = true by simpa using hB)] at hkey
            exact hguard b hb hB ⟨hkey.1.symm, hkey.2.1.symm, hkey.2.2.symm⟩
          · by_cases hB : b.id = matrix_id
            · rw [if_neg (show ¬ (a.id == matrix_id) = true by simpa using hA)] at hkey
              rw [if_pos (show (b.id == matrix_id) = true by simpa using hB)] at hkey
              exact hguard a ha hA ⟨hkey.1, hkey.2.1, hkey.2.2⟩
            · rw [if_neg (show ¬ (a.id == matrix_id) = true by simpa using hA)] at hkey hactA
              rw [if_neg (show ¬ (b.id == matrix_id) = true by simpa using hB)] at hkey hactB
              exact hR hactA hactB hkey
    · rw [if_neg hex] at hok
      simp only [Except.ok.injEq, Prod.mk.injEq] at hok
      obtain ⟨hdb, -⟩ := hok
      subst hdb
      exact ⟨hU, hT⟩
  · -- delete
    constructor
    · unfold MatriceRepository.delete
      dsimp only
      rw [UniqueIds, List.pairwise_map]
      apply hU.imp
      intro a b hab
      by_cases hA : a.id = matrix_id <;> by_cases hB : b.id = matrix_id <;>
        simp [hA, hB] <;> omega
    · unfold MatriceRepository.delete
      dsimp only
      rw [ActiveTripleUnique, List.pairwise_map]
      apply hT.imp
      intro a b hab hactA hactB hkey
      by_cases hA : a.id = matrix_id
      · rw [if_pos (show (a.id == matrix_id) = true by simpa using hA)] at hactA
        simp at hactA
      · by_cases hB : b.id = matrix_id
        · rw [if_pos (show (b.id == matrix_id) = true by simpa using hB)] at hactB
          simp at hactB
        · rw [if_neg (show ¬ (a.id == matrix_id) = true by simpa using hA)] at hactA hkey
          rw [if_neg (show ¬ (b.id == matrix_id) = true by simpa using hB)] at hactB hkey
          exact hab hactA hactB hkey

theorem matrice_invariant_preserved_witness :
    UniqueIds (MatriceRepository.delete
      [⟨1, "Berrechid", "A", 1, 10, true⟩, ⟨2, "Temara", "B", 2, 5, true⟩] 2).1
    ∧ ActiveTripleUnique (MatriceRepository.delete
      [⟨1, "Berrechid", "A", 1, 10, true⟩, ⟨2, "Temara", "B", 2, 5, true⟩] 2).1 :=
  (matrice_invariant_preserved
    [⟨1, "Berrechid", "A", 1, 10, true⟩, ⟨2, "Temara", "B", 2, 5, true⟩]
    ⟨"Berrechid", "C", 3, 7⟩ 2
    (by simp [UniqueIds])
    (by simp [ActiveTripleUnique])).2.2

/-! ## The stoppage store (`repository.ArretRepository`)

The `arrets` table is modelled as a list of rows holding the columns the
filters and the default ordering touch; the stored `date` is its day
ordinal (SQLite compares the ISO date text, which orders like the ordinal)
and `heure_debut` is the stored `'HH:MM:SS'` text. -/

/-- A row of the `arrets` table (the columns used by filters/ordering). -/
structure ArretRow where
  site : String
  client : String
  service : String
  statut : String
  date : Nat
  semaine : String
  heure_debut : String
  description : String
  reference : String
  poste_machine : String
deriving DecidableEq, Repr

/-- The in-memory filter mapping handed to the repository. -/
structure Filters where
  site : Option String := none
  client : Option String := none
  service : Option String := none
  statut : Option String := none
  date_from : Option Nat := none
  date_to : Option Nat := none
  semaine : Option String := none
  search : Option String := none
deriving DecidableEq, Repr

/-- Python truthiness of `filters.get(key)` for a text filter: present and
nonempty. -/
def given : Option String → Bool
  | none => false
  | some s => !s.isEmpty

/-- Python truthiness for a date filter value (date objects are always
truthy). -/
def givenDate : Option Nat → Bool
  | none => false
  | some _ => true

/-- Prefix test on character lists. -/
def prefixB : List Char → List Char → Bool
  | [], _ => true
  | _ :: _, [] => false
  | a :: as, b :: bs => a == b && prefixB as bs

/-- Infix test on character lists. -/
def infixB : List Char → List Char → Bool
  | n, [] => n.isEmpty
  | n, c :: hs => prefixB n (c :: hs) || infixB n hs

/-- SQLite `column LIKE '%term%'` : case-insensitive substring match. -/
def likeMatch (term field : String) : Bool :=
  infixB term.toLower.toList field.toLower.toList

/-- SQLite BINARY text comparison (byte order; code-point order here). -/
def strLtb : List Char → List Char → Bool
  | [], [] => false
  | [], _ :: _ => true
  | _ :: _, [] => false
  | a :: as, b :: bs =>
    if a.toNat < b.toNat then true
    else if b.toNat < a.toNat then false
    else strLtb as bs

/-- The `WHERE` clause built by `ArretRepository.get_all` for one row. -/
def matchesFilters (f : Filters) (r : ArretRow) : Bool :=
  (!given f.site || r.site == f.site.getD "")
  && (!given f.client || r.client == f.client.getD "")
  && (!given f.service || r.service == f.service.getD "")
  && (!given f.statut || r.statut == f.statut.getD "")
  && (!givenDate f.date_from || decide (f.date_from.getD 0 ≤ r.date))
  && (!givenDate f.date_to || decide (r.date ≤ f.date_to.getD 0))
  && (!given f.semaine || r.semaine == f.semaine.getD "")
  && (!given f.search || likeMatch (f.search.getD "") r.description
      || likeMatch (f.search.getD "") r.reference
      || likeMatch (f.search.getD "") r.poste_machine)

/-- `ORDER BY date DESC, heure_debut DESC`: `a` comes no later than `b`. -/
def defaultOrder (a b : ArretRow) : Bool :=
  b.date < a.date
  || (b.date == a.date && !(strLtb a.heure_debut.toList b.heure_debut.toList))

def insertOrdered (le : ArretRow → ArretRow → Bool) (x : ArretRow) :
    List ArretRow → List ArretRow
  | [] => [x]
  | y :: ys => if le x y then x :: y :: ys else y :: insertOrdered le x ys

def sortByOrder (le : ArretRow → ArretRow → Bool) (l : List ArretRow) : List ArretRow :=
  l.foldr (insertOrdered le) []

theorem mem_insertOrdered (le : ArretRow → ArretRow → Bool) (x a : ArretRow)
    (l : List ArretRow) : a ∈ insertOrdered le x l ↔ a = x ∨ a ∈ l := by
  induction l with
  | nil => simp [insertOrdered]
  | cons y ys ih =>
    unfold insertOrdered
    split
    · simp
    · simp only [List.mem_cons, ih]
      tauto

theorem mem_sortByOrder (le : ArretRow → ArretRow → Bool) (a : ArretRow)
    (l : List ArretRow) : a ∈ sortByOrder le l ↔ a ∈ l := by
  induction l with
  | nil => simp [sortByOrder]
  | cons y ys ih =>
    unfold sortByOrder at *
    simp only [List.foldr_cons, mem_insertOrdered, List.mem_cons, ih]

namespace ArretRepository

/-- `ArretRepository.get_all` with the default `order_by`: filter, sort by
date and start time descending, then apply `LIMIT/OFFSET` — Python's
`if limit:` skips the clause when `limit` is `None` or `0`. -/
def get_all (db : List ArretRow) (filters : Option Filters)
    (limit : Option Nat) (offset : Nat) : List ArretRow :=
  let rows := match filters with
    | none => db
    | some f => db.filter (matchesFilters f)
  let sorted := sortByOrder defaultOrder rows
  match limit with
  | some n => if n ≠ 0 then (sorted.drop offset).take n else sorted
  | none => sorted

/-- `ArretRepository.count`: its `WHERE` clause only ever includes the
`site`, `date_from` and `date_to` filters — unlike `get_all`'s. -/
def count (db : List ArretRow) (filters : Option Filters) : Nat :=
  match filters with
  | none => db.length
  | some f =>
    (db.filter (fun r =>
      (!given f.site || r.site == f.site.getD "")
      && (!givenDate f.date_from || decide (f.date_from.getD 0 ≤ r.date))
      && (!givenDate f.date_to || decide (r.date ≤ f.date_to.getD 0)))).length

end ArretRepository

theorem mem_get_all (db : List ArretRow) (f : Filters) (r : ArretRow) :
    r ∈ ArretRepository.get_all db (some f) none 0
      ↔ r ∈ db ∧ matchesFilters f r = true := by
  unfold ArretRepository.get_all
  dsimp only
  rw [mem_sortByOrder]
  exact List.mem_filter

/-- Claim C3 (code evidence): `count` ignores every filter except site and
the date range, so under a client filter it disagrees with the number of
rows `get_all` returns for the same filter mapping — the failing input below
has two rows with distinct clients, a `{client: "A"}` filter, `count = 2`
but one listed row. `pages/journal.py` feeds exactly such filter mappings to
both calls. -/
theorem count_ignores_list_filters :
    ArretRepository.count
      [⟨"Berrechid", "A", "IT", "Ouvert", 100, "2026-S01", "08:00:00", "x", "", ""⟩,
       ⟨"Berrechid", "B", "IT", "Ouvert", 100, "2026-S01", "09:00:00", "y", "", ""⟩]
      (some { client := some "A" }) = 2
    ∧ (ArretRepository.get_all
      [⟨"Berrechid", "A", "IT", "Ouvert", 100, "2026-S01", "08:00:00", "x", "", ""⟩,
       ⟨"Berrechid", "B", "IT", "Ouvert", 100, "2026-S01", "09:00:00", "y", "", ""⟩]
      (some { client := some "A" }) none 0).length = 1 := by
  decide

/-- Claim C8: the site, date-range and service filters of `get_all` compose
conjunctively — one call with all three returns exactly the stored rows
satisfying all three conditions, which coincides with membership in each of
the three single-filter results. -/
theorem get_all_filters_conjunctive (db : List ArretRow) (site svc : String)
    (d1 d2 : Nat) (hs : site ≠ "") (hv : svc ≠ "") :
    (∀ r, r ∈ ArretRepository.get_all db
        (some { site := some site, service := some svc,
                date_from := some d1, date_to := some d2 }) none 0
      ↔ (r ∈ db ∧ r.site = site ∧ r.service = svc ∧ d1 ≤ r.date ∧ r.date ≤ d2))
    ∧ (∀ r, r ∈ ArretRepository.get_all db
        (some { site := some site, service := some svc,
                date_from := some d1, date_to := some d2 }) none 0
      ↔ (r ∈ ArretRepository.get_all db (some { site := some site }) none 0
        ∧ r ∈ ArretRepository.get_all db (some { service := some svc }) none 0
        ∧ r ∈ ArretRepository.get_all db
            (some { date_from := some d1, date_to := some d2 }) none 0)) := by
  have hse : site.isEmpty = false := by
    cases he : site.isEmpty
    · rfl
    · exact absurd ((String.isEmpty_iff site).mp he) hs
  have hve : svc.isEmpty = false := by
    cases he : svc.isEmpty
    · rfl
    · exact absurd ((String.isEmpty_iff svc).mp he) hv
  have hsg : given (some site) = true := by
    show (!site.isEmpty) = true
    rw [hse]
    rfl
  have hvg : given (some svc) = true := by
    show (!svc.isEmpty) = true
    rw [hve]
    rfl
  constructor
  · intro r
    rw [mem_get_all]
    simp only [matchesFilters, hsg, hvg,
      show given (none : Option String) = false from rfl,
      show givenDate (none : Option Nat) = false from rfl,
      show givenDate (some d1) = true from rfl,
      show givenDate (some d2) = true from rfl,
      Bool.not_true, Bool.not_false, Bool.false_or, Bool.true_or, Bool.or_true,
      Bool.and_true, Bool.true_and, Bool.and_eq_true, beq_iff_eq,
      decide_eq_true_eq, Option.getD_some]
    tauto
  · intro r
    rw [mem_get_all, mem_get_all, mem_get_all, mem_get_all]
    simp only [matchesFilters, hsg, hvg,
      show given (none : Option String) = false from rfl,
      show givenDate (none : Option Nat) = false from rfl,
      show givenDate (some d1) = true from rfl,
      show givenDate (some d2) = true from rfl,
      Bool.not_true, Bool.not_false, Bool.false_or, Bool.true_or, Bool.or_true,
      Bool.and_true, Bool.true_and, Bool.and_eq_true, beq_iff_eq,
      decide_eq_true_eq, Option.getD_some]
    tauto

theorem get_all_filters_conjunctive_witness :
    (∀ r, r ∈ ArretRepository.get_all
        [⟨"Berrechid", "A", "IT", "Ouvert", 100, "2026-S01", "08:00:00", "x", "", ""⟩]
        (some { site := some "Berrechid", service := some "IT",
                date_from := some 90, date_to := some 110 }) none 0
      ↔ (r ∈ [(⟨"Berrechid", "A", "IT", "Ouvert", 100, "2026-S01", "08:00:00", "x", "", ""⟩ : ArretRow)]
          ∧ r.site = "Berrechid" ∧ r.service = "IT" ∧ 90 ≤ r.date ∧ r.date ≤ 110))
    ∧ (∀ r, r ∈ ArretRepository.get_all
        [⟨"Berrechid", "A", "IT", "Ouvert", 100, "2026-S01", "08:00:00", "x", "", ""⟩]
        (some { site := some "Berrechid", service := some "IT",
                date_from := some 90, date_to := some 110 }) none 0
      ↔ (r ∈ ArretRepository.get_all
            [⟨"Berrechid", "A", "IT", "Ouvert", 100, "2026-S01", "08:00:00", "x", "", ""⟩]
            (some { site := some "Berrechid" }) none 0
        ∧ r ∈ ArretRepository.get_all
            [⟨"Berrechid", "A", "IT", "Ouvert", 100, "2026-S01", "08:00:00", "x", "", ""⟩]
            (some { service := some "IT" }) none 0
        ∧ r ∈ ArretRepository.get_all
            [⟨"Berrechid", "A", "IT", "Ouvert", 100, "2026-S01", "08:00:00", "x", "", ""⟩]
            (some { date_from := some 90, date_to := some 110 }) none 0)) :=
  get_all_filters_conjunctive
    [⟨"Berrechid", "A", "IT", "Ouvert", 100, "2026-S01", "08:00:00", "x", "", ""⟩]
    "Berrechid" "IT" 90 110 (by decide) (by decide)

/-! ## The validator (`validators.validate_arret`)

The candidate record is a loosely typed field mapping; its values are
modelled by `FieldVal` (absent/`None`, text, integer, time, date — the value
shapes the callers produce). Python statements that can raise are modelled
in `Except PyErr`; the `try/except (ValueError, TypeError)` blocks catch
exactly those two constructors, so an uncaught exception would surface as
`.error`. `date.today()` is passed explicitly as an ordinal. -/

/-- A value stored under a key of the candidate record. -/
inductive FieldVal where
  | vNone
  | vStr (s : String)
  | vInt (n : Int)
  | vTime (t : PyTime)
  | vDate (d : PyDate)
deriving DecidableEq, Repr

/-- Python truthiness of a field value (`None`, `''` and `0` are falsy;
`time` and `date` objects are always truthy). -/
def truthy : FieldVal → Bool
  | .vNone => false
  | .vStr s => !s.isEmpty
  | .vInt n => n != 0
  | .vTime _ => true
  | .vDate _ => true

/-- The candidate record: the keys `validate_arret` consults. -/
structure ArretData where
  site : FieldVal := .vNone
  date : FieldVal := .vNone
  heure_debut : FieldVal := .vNone
  heure_fin : FieldVal := .vNone
  client : FieldVal := .vNone
  service : FieldVal := .vNone
  batiment : FieldVal := .vNone
  nbr_equipes : FieldVal := .vNone
  statut : FieldVal := .vNone
deriving DecidableEq, Repr

/-- `data.get(key)` with default `None`. -/
def ArretData.get (d : ArretData) : String → FieldVal
  | "site" => d.site
  | "date" => d.date
  | "heure_debut" => d.heure_debut
  | "heure_fin" => d.heure_fin
  | "client" => d.client
  | "service" => d.service
  | "batiment" => d.batiment
  | "nbr_equipes" => d.nbr_equipes
  | "statut" => d.statut
  | _ => .vNone

/-- `config.SITES`. -/
def SITES : List String := ["Berrechid", "Temara"]

/-- `config.STATUTS`. -/
def STATUTS : List String := ["Ouvert", "En cours", "Résolu"]

/-- `config.BATIMENTS_PAR_SITE.get(site, [])`. -/
def BATIMENTS_PAR_SITE (v : FieldVal) : List String :=
  if v == .vStr "Berrechid" then ["Bât A", "Bât B"]
  else if v == .vStr "Temara" then ["TEM"]
  else []

def padZero (w : Nat) (n : Nat) : String :=
  let s := toString n
  String.mk (List.replicate (w - s.length) '0') ++ s

/-- Python `str(time)`. -/
def timeStr (t : PyTime) : String :=
  padZero 2 t.hour ++ ":" ++ padZero 2 t.minute ++ ":" ++ padZero 2 t.second
  ++ (if t.microsecond ≠ 0 then "." ++ padZero 6 t.microsecond else "")

/-- Python `str(date)`. -/
def dateStr (d : PyDate) : String :=
  padZero 4 d.year ++ "-" ++ padZero 2 d.month ++ "-" ++ padZero 2 d.day

/-- Python `str`/f-string rendering of a field value. -/
def pyStr : FieldVal → String
  | .vNone => "None"
  | .vStr s => s
  | .vInt n => toString n
  | .vTime t => timeStr t
  | .vDate d => dateStr d

/-- Python `str` of a list of strings (`repr` of each element). -/
def pyReprList (l : List String) : String :=
  "[" ++ String.intercalate ", " (l.map (fun s => "\x27" ++ s ++ "\x27")) ++ "]"

def charDigit? (c : Char) : Option Nat :=
  if '0' ≤ c ∧ c ≤ '9' then some (c.toNat - '0'.toNat) else none

/-- Decimal value of a nonempty all-digit character list. -/
def digitsToNat? (l : List Char) : Option Nat :=
  if l.isEmpty then none
  else l.foldl (fun acc c => do
    let a ← acc
    let d ← charDigit? c
    pure (a * 10 + d)) (some 0)

/-- Split a character list on a separator character. -/
def splitOnChar (c : Char) : List Char → List (List Char)
  | [] => [[]]
  | x :: xs =>
    let r := splitOnChar c xs
    if x == c then [] :: r
    else match r with
      | [] => [[x]]
      | h :: t => (x :: h) :: t

def parse2Digits (l : List Char) : Option Nat :=
  if l.length = 2 then digitsToNat? l else none

/-- `time.fromisoformat`: the `HH:MM[:SS]` core of its grammar (fractional
seconds and other extensions are omitted; the claims only depend on
parse success versus `ValueError`). -/
def parseTimeISO (s : String) : Option PyTime :=
  match splitOnChar ':' s.toList with
  | [hh, mm] => do
    let h ← parse2Digits hh
    let m ← parse2Digits mm
    if h < 24 ∧ m < 60 then some ⟨h, m, 0, 0⟩ else none
  | [hh, mm, ss] => do
    let h ← parse2Digits hh
    let m ← parse2Digits mm
    let sec ← parse2Digits ss
    if h < 24 ∧ m < 60 ∧ sec < 60 then some ⟨h, m, sec, 0⟩ else none
  | _ => none

/-- `date.fromisoformat`: the `YYYY-MM-DD` grammar with calendar validity. -/
def parseDateISO (s : String) : Option PyDate :=
  match splitOnChar (Char.ofNat 45) s.toList with
  | [ys, ms, ds] =>
    if ys.length = 4 ∧ ms.length = 2 ∧ ds.length = 2 then do
      let y ← digitsToNat? ys
      let m ← digitsToNat? ms
      let dd ← digitsToNat? ds
      if 1 ≤ y ∧ 1 ≤ m ∧ m ≤ 12 ∧ 1 ≤ dd ∧ dd ≤ daysInMonth y m then
        some ⟨y, m, dd⟩
      else none
    else none
  | _ => none

deriving instance DecidableEq for Except

/-- The Python exceptions the validator's statements can raise. -/
inductive PyErr where
  | valueError (msg : String)
  | typeError (msg : String)
  | otherError (msg : String)
deriving DecidableEq, Repr

def required_fields : List String :=
  ["site", "date", "heure_debut", "heure_fin", "client", "service"]

def requiredMsg (field : String) : String :=
  "Le champ \x27" ++ field ++ "\x27 est obligatoire."

def siteInvalidMsg (v : FieldVal) : String :=
  "Site invalide: " ++ pyStr v ++ ". Valeurs acceptées: " ++ pyReprList SITES

def batimentInvalidMsg (b v : FieldVal) (valid : List String) : String :=
  "Bâtiment \x27" ++ pyStr b ++ "\x27 invalide pour le site \x27" ++ pyStr v
  ++ "\x27. Valeurs acceptées: " ++ pyReprList valid

def statutInvalidMsg (v : FieldVal) : String :=
  "Statut invalide: " ++ pyStr v ++ ". Valeurs acceptées: " ++ pyReprList STATUTS

def equipesRangeMsg : String := "Le nombre d\x27équipes doit être entre 1 et 3."

def equipesIntMsg : String := "Le nombre d\x27équipes doit être un entier."

def timeFormatMsg (e : String) : String := "Format d\x27heure invalide: " ++ e

def dateFormatMsg (e : String) : String := "Format de date invalide: " ++ e

def futureDateMsg : String := "La date ne peut pas être dans le futur."

/-- `time.fromisoformat(x)` guarded by `isinstance(x, str)`: strings are
parsed (raising `ValueError` on failure), other values pass through. -/
def fromisoformatTime (v : FieldVal) : Except PyErr FieldVal :=
  match v with
  | .vStr s =>
    match parseTimeISO s with
    | some t => .ok (.vTime t)
    | none => .error (.valueError ("Invalid isoformat string: \x27" ++ s ++ "\x27"))
  | w => .ok w

/-- The body of the time `try` block: convert `debut`, then `fin`. -/
def timeConvertPair (debut fin : FieldVal) : Except PyErr (FieldVal × FieldVal) := do
  let d ← fromisoformatTime debut
  let f ← fromisoformatTime fin
  pure (d, f)

def trimSpaces (l : List Char) : List Char :=
  ((l.dropWhile (· == ' ')).reverse.dropWhile (· == ' ')).reverse

/-- Decimal integer with optional sign, as `int()` accepts. -/
def parseIntChars : List Char → Option Int
  | '-' :: rest => (digitsToNat? rest).map (fun n => -(n : Int))
  | '+' :: rest => (digitsToNat? rest).map (fun n => (n : Int))
  | l => (digitsToNat? l).map (fun n => (n : Int))

/-- Python `int(x)` on a field value. -/
def pyIntOf (v : FieldVal) : Except PyErr Int :=
  match v with
  | .vInt n => .ok n
  | .vStr s =>
    match parseIntChars (trimSpaces s.toList) with
    | some n => .ok n
    | none =>
      .error (.valueError ("invalid literal for int() with base 10: \x27" ++ s ++ "\x27"))
  | .vTime _ => .error (.typeError "int() argument must be a string or a number")
  | .vDate _ => .error (.typeError "int() argument must be a string or a number")
  | .vNone => .error (.typeError "int() argument must be a string or a number")

/-- The body of the date `try` block: coerce a string via
`date.fromisoformat`, then evaluate `arret_date > date.today()` (comparing a
non-date raises `TypeError`). -/
def dateCheck (v : FieldVal) (today : Nat) : Except PyErr Bool := do
  let dv ← (match v with
    | .vStr s =>
      match parseDateISO s with
      | some d => Except.ok (FieldVal.vDate d)
      | none =>
        Except.error (PyErr.valueError ("Invalid isoformat string: \x27" ++ s ++ "\x27"))
    | w => Except.ok w)
  match dv with
  | .vDate d => pure (decide (today < d.toOrdinal))
  | _ => throw (.typeError "not supported between instances of date")

/-- `validators.validate_arret`: runs every rule in source order,
accumulating messages; each `try/except (ValueError, TypeError)` appends a
message instead of propagating, and any other exception would escape as
`.error` (the `match`es thread Python's implicit exception propagation).
Returns `(len(errors) == 0, errors)`. -/
def validate_arret (data : ArretData) (today : Nat) :
    Except PyErr (Bool × List String) :=
  let errors : List String := []
  -- Required fields
  let errors := required_fields.foldl
    (fun errs field =>
      if truthy (data.get field) then errs else errs ++ [requiredMsg field]) errors
  -- Site validation
  let errors := if truthy data.site && !(SITES.any (fun s => data.site == .vStr s)) then
      errors ++ [siteInvalidMsg data.site]
    else errors
  -- Batiment validation (must match site)
  let errors := if truthy data.site && truthy data.batiment then
      (if !((BATIMENTS_PAR_SITE data.site).any (fun b => data.batiment == .vStr b)) then
        errors ++ [batimentInvalidMsg data.batiment data.site (BATIMENTS_PAR_SITE data.site)]
      else errors)
    else errors
  -- Time validation, in try/except (ValueError, TypeError)
  let timeRes : Except PyErr (List String) :=
    if truthy data.heure_debut && truthy data.heure_fin then
      match timeConvertPair data.heure_debut data.heure_fin with
      | .ok _ => .ok errors
      | .error (.valueError m) => .ok (errors ++ [timeFormatMsg m])
      | .error (.typeError m) => .ok (errors ++ [timeFormatMsg m])
      | .error e => .error e
    else .ok errors
  match timeRes with
  | .error e => .error e
  | .ok errors =>
    -- Nombre d'équipes validation, in try/except (ValueError, TypeError)
    let equipesRes : Except PyErr (List String) :=
      if truthy data.nbr_equipes then
        match pyIntOf data.nbr_equipes with
        | .ok nbr => .ok (if nbr < 1 || 3 < nbr then errors ++ [equipesRangeMsg] else errors)
        | .error (.valueError _) => .ok (errors ++ [equipesIntMsg])
        | .error (.typeError _) => .ok (errors ++ [equipesIntMsg])
        | .error e => .error e
      else .ok errors
    match equipesRes with
    | .error e => .error e
    | .ok errors =>
      -- Status validation
      let errors := if truthy data.statut && !(STATUTS.any (fun s => data.statut == .vStr s)) then
          errors ++ [statutInvalidMsg data.statut]
        else errors
      -- Date validation (not in the future), in try/except (ValueError, TypeError)
      let dateRes : Except PyErr (List String) :=
        if truthy data.date then
          match dateCheck data.date today with
          | .ok isFuture => .ok (if isFuture then errors ++ [futureDateMsg] else errors)
          | .error (.valueError m) => .ok (errors ++ [dateFormatMsg m])
          | .error (.typeError m) => .ok (errors ++ [dateFormatMsg m])
          | .error e => .error e
        else .ok errors
      match dateRes with
      | .error e => .error e
      | .ok errors => .ok (errors.isEmpty, errors)

/-! Per-rule error lists, stated independently of the sequential
accumulation; `validate_arret` is proved to return their concatenation. -/

def requiredFieldErrors (data : ArretData) : List String :=
  (required_fields.filter (fun field => !truthy (data.get field))).map requiredMsg

def siteRuleErrors (data : ArretData) : List String :=
  if truthy data.site && !(SITES.any (fun s => data.site == .vStr s)) then
    [siteInvalidMsg data.site]
  else []

def batimentRuleErrors (data : ArretData) : List String :=
  if truthy data.site && truthy data.batiment then
    (if !((BATIMENTS_PAR_SITE data.site).any (fun b => data.batiment == .vStr b)) then
      [batimentInvalidMsg data.batiment data.site (BATIMENTS_PAR_SITE data.site)]
    else [])
  else []

def timeRuleErrors (data : ArretData) : List String :=
  if truthy data.heure_debut && truthy data.heure_fin then
    match timeConvertPair data.heure_debut data.heure_fin with
    | .ok _ => []
    | .error (.valueError m) => [timeFormatMsg m]
    | .error (.typeError m) => [timeFormatMsg m]
    | .error _ => []
  else []

def equipesRuleErrors (data : ArretData) : List String :=
  if truthy data.nbr_equipes then
    match pyIntOf data.nbr_equipes with
    | .ok nbr => if nbr < 1 || 3 < nbr then [equipesRangeMsg] else []
    | .error (.valueError _) => [equipesIntMsg]
    | .error (.typeError _) => [equipesIntMsg]
    | .error _ => []
  else []

def statutRuleErrors (data : ArretData) : List String :=
  if truthy data.statut && !(STATUTS.any (fun s => data.statut == .vStr s)) then
    [statutInvalidMsg data.statut]
  else []

def dateRuleErrors (data : ArretData) (today : Nat) : List String :=
  if truthy data.date then
    match dateCheck data.date today with
    | .ok isFuture => if isFuture then [futureDateMsg] else []
    | .error (.valueError m) => [dateFormatMsg m]
    | .error (.typeError m) => [dateFormatMsg m]
    | .error _ => []
  else []

def allRuleErrors (data : ArretData) (today : Nat) : List String :=
  requiredFieldErrors data ++ siteRuleErrors data ++ batimentRuleErrors data
  ++ timeRuleErrors data ++ equipesRuleErrors data ++ statutRuleErrors data
  ++ dateRuleErrors data today

theorem fromisoformatTime_shape (v : FieldVal) :
    (∃ w, fromisoformatTime v = .ok w)
    ∨ (∃ m, fromisoformatTime v = .error (.valueError m)) := by
  cases v <;> simp only [fromisoformatTime]
  case vStr s =>
    rcases h : parseTimeISO s with _ | t <;> simp
  all_goals exact Or.inl ⟨_, rfl⟩

theorem timeConvertPair_shape (a b : FieldVal) :
    (∃ p, timeConvertPair a b = .ok p)
    ∨ (∃ m, timeConvertPair a b = .error (.valueError m)) := by
  unfold timeConvertPair
  rcases fromisoformatTime_shape a with ⟨w, hw⟩ | ⟨m, hm⟩
  · rcases fromisoformatTime_shape b with ⟨w', hw'⟩ | ⟨m, hm⟩
    · exact Or.inl ⟨(w, w'), by simp [hw, hw', Bind.bind, Except.bind, pure, Except.pure]⟩
    · exact Or.inr ⟨m, by simp [hw, hm, Bind.bind, Except.bind, Functor.map, Except.map]⟩
  · exact Or.inr ⟨m, by simp [hm, Bind.bind, Except.bind]⟩

theorem pyIntOf_shape (v : FieldVal) :
    (∃ n, pyIntOf v = .ok n)
    ∨ (∃ m, pyIntOf v = .error (.valueError m))
    ∨ (∃ m, pyIntOf v = .error (.typeError m)) := by
  cases v <;> simp only [pyIntOf]
  case vStr s =>
    rcases h : parseIntChars (trimSpaces s.toList) with _ | n <;> simp
  case vInt n => exact Or.inl ⟨n, rfl⟩
  all_goals simp

theorem dateCheck_shape (v : FieldVal) (today : Nat) :
    (∃ b, dateCheck v today = .ok b)
    ∨ (∃ m, dateCheck v today = .error (.valueError m))
    ∨ (∃ m, dateCheck v today = .error (.typeError m)) := by
  cases v <;> simp only [dateCheck]
  case vStr s =>
    rcases h : parseDateISO s with _ | d <;>
      simp [h, pure, Except.pure, throw, throwThe, MonadExceptOf.throw,
        Bind.bind, Except.bind]
  case vDate d => simp [pure, Except.pure, Bind.bind, Except.bind]
  all_goals simp [throw, throwThe, MonadExceptOf.throw, Bind.bind, Except.bind]

theorem required_foldl (data : ArretData) (l : List String) (init : List String) :
    l.foldl (fun errs field =>
        if truthy (data.get field) then errs else errs ++ [requiredMsg field]) init
      = init ++ (l.filter (fun field => !truthy (data.get field))).map requiredMsg := by
  induction l generalizing init with
  | nil => simp
  | cons f fs ih =>
    simp only [List.foldl_cons, List.filter_cons]
    by_cases h : truthy (data.get f)
    · rw [if_pos h, ih]
      simp [h]
    · rw [if_neg h, ih]
      simp [h]

theorem ite_append_single (c : Prop) [Decidable c] (errs l : List String) :
    (if c then errs ++ l else errs) = errs ++ (if c then l else []) := by
  split <;> simp

theorem time_step (data : ArretData) (errs : List String) :
    (if truthy data.heure_debut && truthy data.heure_fin then
      match timeConvertPair data.heure_debut data.heure_fin with
      | .ok _ => Except.ok errs
      | .error (.valueError m) => Except.ok (errs ++ [timeFormatMsg m])
      | .error (.typeError m) => Except.ok (errs ++ [timeFormatMsg m])
      | .error e => Except.error e
    else Except.ok errs)
      = Except.ok (errs ++ timeRuleErrors data) := by
  unfold timeRuleErrors
  by_cases ct : (truthy data.heure_debut && truthy data.heure_fin) = true
  · rw [if_pos ct, if_pos ct]
    rcases timeConvertPair_shape data.heure_debut data.heure_fin with ⟨p, hp⟩ | ⟨m, hp⟩ <;>
      rw [hp] <;> simp
  · rw [if_neg ct, if_neg ct]
    simp

theorem equipes_step (data : ArretData) (errs : List String) :
    (if truthy data.nbr_equipes then
      match pyIntOf data.nbr_equipes with
      | .ok nbr => Except.ok (if nbr < 1 || 3 < nbr then errs ++ [equipesRangeMsg] else errs)
      | .error (.valueError _) => Except.ok (errs ++ [equipesIntMsg])
      | .error (.typeError _) => Except.ok (errs ++ [equipesIntMsg])
      | .error e => Except.error e
    else Except.ok errs)
      = Except.ok (errs ++ equipesRuleErrors data) := by
  unfold equipesRuleErrors
  by_cases ce : truthy data.nbr_equipes = true
  · rw [if_pos ce, if_pos ce]
    rcases pyIntOf_shape data.nbr_equipes with ⟨n, hn⟩ | ⟨m, hn⟩ | ⟨m, hn⟩ <;> rw [hn] <;>
      simp [ite_append_single]
  · rw [if_neg ce, if_neg ce]
    simp

theorem date_step (data : ArretData) (today : Nat) (errs : List String) :
    (if truthy data.date then
      match dateCheck data.date today with
      | .ok isFuture => Except.ok (errs ++ if isFuture then [futureDateMsg] else [])
      | .error (.valueError m) => Except.ok (errs ++ [dateFormatMsg m])
      | .error (.typeError m) => Except.ok (errs ++ [dateFormatMsg m])
      | .error e => Except.error e
    else Except.ok errs)
      = Except.ok (errs ++ dateRuleErrors data today) := by
  unfold dateRuleErrors
  by_cases cd : truthy data.date = true
  · rw [if_pos cd, if_pos cd]
    rcases dateCheck_shape data.date today with ⟨b, hd⟩ | ⟨m, hd⟩ | ⟨m, hd⟩ <;> rw [hd] <;>
      simp [ite_append_single]
  · rw [if_neg cd, if_neg cd]
    simp

/-- `validate_arret` runs every rule and returns the concatenation of the
per-rule error lists, with validity meaning that list is empty. -/
theorem validate_arret_run (data : ArretData) (today : Nat) :
    validate_arret data today
      = .ok ((allRuleErrors data today).isEmpty, allRuleErrors data today) := by
  unfold validate_arret allRuleErrors
  dsimp only
  rw [required_foldl, List.nil_append, time_step]
  dsimp only
  rw [equipes_step]
  dsimp only
  simp only [ite_append_single]
  rw [date_step]
  unfold requiredFieldErrors siteRuleErrors batimentRuleErrors statutRuleErrors
  simp only [ite_append_single, List.append_assoc]

theorem requiredMsg_injective : Function.Injective requiredMsg := by
  intro a b h
  unfold requiredMsg at h
  have hd := congrArg String.data h
  simp only [String.data_append] at hd
  have h1 := List.append_cancel_right hd
  have h2 := List.append_cancel_left h1
  cases a
  cases b
  exact congrArg String.mk h2

theorem truthy_vStr (s : String) (h : s ≠ "") : truthy (.vStr s) = true := by
  show (!s.isEmpty) = true
  cases he : s.isEmpty
  · rfl
  · exact absurd ((String.isEmpty_iff s).mp he) h

/-- Claim C6: `validate_arret` evaluates all rules without short-circuiting —
it returns the concatenation of every rule's own error list, each missing
required field contributes exactly one message, those messages are pairwise
distinct, and validity is emptiness of the whole list. -/
theorem validate_arret_accumulates (data : ArretData) (today : Nat) :
    ∃ errs : List String,
      validate_arret data today = .ok (errs.isEmpty, errs)
      ∧ errs = requiredFieldErrors data ++ siteRuleErrors data ++ batimentRuleErrors data
          ++ timeRuleErrors data ++ equipesRuleErrors data ++ statutRuleErrors data
          ++ dateRuleErrors data today
      ∧ (∀ field ∈ required_fields, truthy (data.get field) = false →
          requiredMsg field ∈ errs
          ∧ (requiredFieldErrors data).count (requiredMsg field) = 1)
      ∧ Function.Injective requiredMsg := by
  refine ⟨allRuleErrors data today, validate_arret_run data today, rfl, ?_,
    requiredMsg_injective⟩
  intro field hf hmiss
  have hmem : requiredMsg field ∈ requiredFieldErrors data := by
    unfold requiredFieldErrors
    exact List.mem_map_of_mem _ (List.mem_filter.mpr ⟨hf, by simp [hmiss]⟩)
  constructor
  · unfold allRuleErrors
    simp only [List.mem_append]
    tauto
  · unfold requiredFieldErrors
    rw [List.count_map_of_injective _ _ requiredMsg_injective]
    rw [List.count_filter (by simp [hmiss])]
    exact List.count_eq_one_of_mem (by decide) hf

theorem validate_arret_accumulates_witness :
    ∃ errs, validate_arret {} 739700 = .ok (errs.isEmpty, errs)
      ∧ requiredMsg "site" ∈ errs := by
  obtain ⟨errs, hok, -, h3, -⟩ := validate_arret_accumulates {} 739700
  exact ⟨errs, hok, (h3 "site" (by decide) (by decide)).1⟩

/-- Claim C7: `validate_arret` never lets an exception escape — it returns
`(is_valid, errors)` for every input mapping, and an unparsable date or time
string surfaces as an entry of the returned error list. -/
theorem validate_arret_total (data : ArretData) (today : Nat) :
    (∃ p, validate_arret data today = .ok p)
    ∧ (∀ s : String, data.date = .vStr s → s ≠ "" → parseDateISO s = none →
        ∀ v errs, validate_arret data today = .ok (v, errs) →
          ∃ m, dateFormatMsg m ∈ errs)
    ∧ (∀ s : String, data.heure_debut = .vStr s → s ≠ "" →
        truthy data.heure_fin = true → parseTimeISO s = none →
        ∀ v errs, validate_arret data today = .ok (v, errs) →
          ∃ m, timeFormatMsg m ∈ errs) := by
  refine ⟨⟨_, validate_arret_run data today⟩, ?_, ?_⟩
  · intro s hds hne hparse v errs hok
    rw [validate_arret_run data today] at hok
    simp only [Except.ok.injEq, Prod.mk.injEq] at hok
    obtain ⟨-, herrs⟩ := hok
    have hdc : dateCheck (.vStr s) today
        = .error (.valueError ("Invalid isoformat string: \x27" ++ s ++ "\x27")) := by
      unfold dateCheck
      simp [hparse, Bind.bind, Except.bind]
    have hdr : dateRuleErrors data today
        = [dateFormatMsg ("Invalid isoformat string: \x27" ++ s ++ "\x27")] := by
      unfold dateRuleErrors
      rw [hds, if_pos (truthy_vStr s hne), hdc]
    refine ⟨"Invalid isoformat string: \x27" ++ s ++ "\x27", ?_⟩
    rw [← herrs]
    unfold allRuleErrors
    simp only [List.mem_append, hdr]
    simp
  · intro s hds hne hfin hparse v errs hok
    rw [validate_arret_run data today] at hok
    simp only [Except.ok.injEq, Prod.mk.injEq] at hok
    obtain ⟨-, herrs⟩ := hok
    have htc : timeConvertPair (.vStr s) data.heure_fin
        = .error (.valueError ("Invalid isoformat string: \x27" ++ s ++ "\x27")) := by
      unfold timeConvertPair fromisoformatTime
      simp [hparse, Bind.bind, Except.bind]
    have htr : timeRuleErrors data
        = [timeFormatMsg ("Invalid isoformat string: \x27" ++ s ++ "\x27")] := by
      unfold timeRuleErrors
      rw [hds, if_pos (by rw [truthy_vStr s hne, hfin]; rfl), htc]
    refine ⟨"Invalid isoformat string: \x27" ++ s ++ "\x27", ?_⟩
    rw [← herrs]
    unfold allRuleErrors
    simp only [List.mem_append, htr]
    simp

theorem validate_arret_total_witness :
    (∃ p, validate_arret { date := .vStr "garbage" } 739700 = .ok p)
    ∧ ∃ m, dateFormatMsg m ∈
        [requiredMsg "site", requiredMsg "heure_debut", requiredMsg "heure_fin",
         requiredMsg "client", requiredMsg "service",
         dateFormatMsg "Invalid isoformat string: \x27garbage\x27"] := by
  have h := validate_arret_total { date := .vStr "garbage" } 739700
  exact ⟨h.1, h.2.1 "garbage" rfl (by decide) (by decide) false _ (by decide)⟩

/-- Claim C4 (counterexample): a record whose team-count is the integer 0 —
outside [1,3] — passes validation with no error at all, because `0` is falsy
and `if data.get('nbr_equipes'):` skips the range check. -/
theorem validate_arret_zero_team_count :
    validate_arret
      { site := .vStr "Berrechid", date := .vDate ⟨2026, 1, 15⟩,
        heure_debut := .vTime ⟨8, 0, 0, 0⟩, heure_fin := .vTime ⟨14, 0, 0, 0⟩,
        client := .vStr "ACME", service := .vStr "IT",
        nbr_equipes := .vInt 0 } 739700 = .ok (true, []) := by
  decide

/-- Claim C4 (amended): for a team-count given as a nonzero integer outside
[1,3], `validate_arret` returns invalid with the range message in its error
list; the integer 0, although outside [1,3], is falsy and skips the check. -/
theorem validate_arret_team_count_range (data : ArretData) (today : Nat) (n : Int)
    (hn : data.nbr_equipes = .vInt n) (hnz : n ≠ 0) (hout : n < 1 ∨ 3 < n) :
    ∀ v errs, validate_arret data today = .ok (v, errs) →
      v = false ∧ equipesRangeMsg ∈ errs := by
  intro v errs hok
  rw [validate_arret_run] at hok
  simp only [Except.ok.injEq, Prod.mk.injEq] at hok
  obtain ⟨hv, herrs⟩ := hok
  have hrange : (n < 1 || 3 < n) = true := by
    rcases hout with h | h <;> simp [h]
  have heq : equipesRuleErrors data = [equipesRangeMsg] := by
    unfold equipesRuleErrors
    rw [hn, if_pos (by simp [truthy, hnz])]
    show (if n < 1 || 3 < n then [equipesRangeMsg] else []) = [equipesRangeMsg]
    rw [if_pos hrange]
  have hmem : equipesRangeMsg ∈ allRuleErrors data today := by
    unfold allRuleErrors
    simp only [List.mem_append, heq]
    simp
  constructor
  · rw [← hv]
    cases hemp : (allRuleErrors data today).isEmpty
    · rfl
    · rw [List.isEmpty_iff] at hemp
      rw [hemp] at hmem
      simp at hmem
  · rw [← herrs]
    exact hmem

theorem validate_arret_team_count_range_witness :
    false = false ∧ equipesRangeMsg ∈ [equipesRangeMsg] :=
  validate_arret_team_count_range
    { site := .vStr "Berrechid", date := .vDate ⟨2026, 1, 15⟩,
      heure_debut := .vTime ⟨8, 0, 0, 0⟩, heure_fin := .vTime ⟨14, 0, 0, 0⟩,
      client := .vStr "ACME", service := .vStr "IT",
      nbr_equipes := .vInt 4 } 739700 4 rfl (by decide) (Or.inr (by decide))
    false [equipesRangeMsg] (by decide)

end Suivi
